import Mathlib

/-!
Verification of the gig-sheets layout and image-normalization engine
(`cmd/generate.go`) against its specification.

The Go code is shallowly embedded:
* a decoded image is a rectangle of pixels observed through the
  `color.Color.RGBA()` interface (16-bit alpha-premultiplied channels);
  unsigned machine integers become `Nat` with explicit `/ 256 % 256`
  where the code truncates;
* the PDF-building side effects of `generatePDF` become a pure plan
  state (`PlanState`): a cursor, a page counter and a list of emitted
  page operations; file-system and image-decoding effects are abstracted
  into an environment `String → ImgOutcome` describing, per image path,
  what the decode/crop/encode/register chain would return;
* geometry uses exact rationals in place of `float64`.
-/

namespace GigSheets

/-! ### Pixels

`NPixel` is a non-alpha-premultiplied 8-bit RGBA pixel as stored in a
decoded PNG (`image.NRGBA`).  `Color16` is the quadruple returned by Go's
`color.Color.RGBA()`: 16-bit channels, alpha-premultiplied. -/

structure NPixel where
  r : Nat
  g : Nat
  b : Nat
  a : Nat
deriving DecidableEq, Repr

structure Color16 where
  r : Nat
  g : Nat
  b : Nat
  a : Nat
deriving DecidableEq, Repr

/-- Embedding of Go's `color.NRGBA.RGBA()`: each channel is widened to 16 bits
(`x | x<<8 = x*257`), multiplied by alpha and divided by `0xff`;
alpha itself is just widened. -/
def NPixel.rgba (p : NPixel) : Color16 :=
  ⟨p.r * 257 * p.a / 255, p.g * 257 * p.a / 255, p.b * 257 * p.a / 255, p.a * 257⟩

/-- Embedding of `isWhiteOrTransparent` from `cmd/generate.go`: operates on the
`RGBA()` view of a pixel; transparent (`a == 0`) is background, otherwise
each 16-bit channel is truncated to 8 bits (`uint8(r >> 8)`) and compared
against the fixed threshold 240. -/
def isWhiteOrTransparent (c : Color16) : Bool :=
  if c.a = 0 then true
  else
    let r8 := c.r / 256 % 256
    let g8 := c.g / 256 % 256
    let b8 := c.b / 256 % 256
    decide (240 ≤ r8) && decide (240 ≤ g8) && decide (240 ≤ b8)

/-- The background rule as the specification words it: alpha 0, or all
three *raw* (non-premultiplied) 8-bit channels at least 240. -/
def specBackground (p : NPixel) : Bool :=
  decide (p.a = 0) || (decide (240 ≤ p.r) && decide (240 ≤ p.g) && decide (240 ≤ p.b))

/-! ### Decoded images and the content-bounds detector

A Go `image.Image` is a bounds rectangle `[minX, maxX) × [minY, maxY)`
plus the pixel observation function `At` (here `px`, already in the
`RGBA()` view used by the detector). -/

structure GoImage where
  minX : Int
  minY : Int
  maxX : Int
  maxY : Int
  px : Int → Int → Color16

/-- Inner loop of `findLeftMostContent` / `findRightMostContent`:
does column `x` contain a foreground pixel (rows scanned top→bottom)? -/
def colHasContent (img : GoImage) (x : Int) : Bool :=
  (List.range (img.maxY - img.minY).toNat).any fun (j : Nat) =>
    ! isWhiteOrTransparent (img.px x (img.minY + (j : Int)))

/-- Inner loop of the top/bottom scans: does row `y` contain a
foreground pixel (columns scanned left→right)? -/
def rowHasContent (img : GoImage) (y : Int) : Bool :=
  (List.range (img.maxX - img.minX).toNat).any fun (i : Nat) =>
    ! isWhiteOrTransparent (img.px (img.minX + (i : Int)) y)

/-- Embedding of `findLeftMostContent`: first column (left→right) containing a
foreground pixel; falls back to `bounds.Min.X`. -/
def findLeftMostContent (img : GoImage) : Int :=
  match (List.range (img.maxX - img.minX).toNat).find?
      (fun (i : Nat) => colHasContent img (img.minX + (i : Int))) with
  | some i => img.minX + (i : Int)
  | none => img.minX

/-- Embedding of `findTopMostContent`: first row (top→bottom) containing a foreground
pixel; falls back to `bounds.Min.Y`. -/
def findTopMostContent (img : GoImage) : Int :=
  match (List.range (img.maxY - img.minY).toNat).find?
      (fun (j : Nat) => rowHasContent img (img.minY + (j : Int))) with
  | some j => img.minY + (j : Int)
  | none => img.minY

/-- Embedding of `findBottomMostContent`: scanning rows bottom→top, one past the first
foreground row found; falls back to `bounds.Max.Y`.  Iteration `j`
visits row `maxY - 1 - j` and returns `y + 1 = maxY - j`. -/
def findBottomMostContent (img : GoImage) : Int :=
  match (List.range (img.maxY - img.minY).toNat).find?
      (fun (j : Nat) => rowHasContent img (img.maxY - 1 - (j : Int))) with
  | some j => img.maxY - (j : Int)
  | none => img.maxY

/-- Embedding of `findRightMostContent`: scanning columns right→left, one past the
first foreground column found; falls back to `bounds.Max.X`. -/
def findRightMostContent (img : GoImage) : Int :=
  match (List.range (img.maxX - img.minX).toNat).find?
      (fun (i : Nat) => colHasContent img (img.maxX - 1 - (i : Int))) with
  | some i => img.maxX - (i : Int)
  | none => img.maxX

/-- The pure part of `cropImage` (after a successful decode): compute the
four content bounds; if they already cover the whole extent, return the
image unchanged; if the crop rectangle is degenerate, return the image
unchanged; otherwise return a fresh `(0,0)`-based buffer of size
`(right-left) × (bottom-top)` holding the source rectangle
(`draw.Copy` with `draw.Src`). -/
def cropDecoded (img : GoImage) : GoImage :=
  let l := findLeftMostContent img
  let t := findTopMostContent img
  let b := findBottomMostContent img
  let r := findRightMostContent img
  if l ≤ img.minX ∧ t ≤ img.minY ∧ img.maxY ≤ b ∧ img.maxX ≤ r then img
  else
    let w := r - l
    let h := b - t
    if w ≤ 0 ∨ h ≤ 0 then img
    else
      { minX := 0, minY := 0, maxX := w, maxY := h,
        px := fun x y => img.px (l + x) (t + y) }

/-- Every pixel of the image classifies as background. -/
def AllBg (img : GoImage) : Prop :=
  ∀ x y : Int, img.minX ≤ x → x < img.maxX → img.minY ≤ y → y < img.maxY →
    isWhiteOrTransparent (img.px x y) = true

/-! ### The layout plan

`generatePDF` is embedded as a pure function producing a list of page
operations.  Geometry uses exact rationals; the layout constants
`margin = 10`, `footerHeight = 15` and the error-block height 10 are the
literals from the code, while the page size and the resolved spacing are
parameters (`pdf.GetPageSize()` and `resolveSpacing`). -/

def margin : ℚ := 10

def footerHeight : ℚ := 15

def errorHeight : ℚ := 10

/-- One point is 0.352778 mm, the conversion constant from the code. -/
def ptToMM : ℚ := 352778 / 1000000

structure LayoutK where
  pageWidth : ℚ
  pageHeight : ℚ
  spacing : ℚ
deriving DecidableEq, Repr

/-- The code computes `availableWidth := pageWidth - 2*margin`. -/
def availableWidth (L : LayoutK) : ℚ := L.pageWidth - 2 * margin

inductive PageOp where
  | startPage : PageOp
  | footer : String → PageOp
  | placeImage : String → ℚ → ℚ → ℚ → ℚ → PageOp
  | placeError : String → ℚ → ℚ → PageOp
deriving DecidableEq, Repr

structure PlanState where
  currentY : ℚ
  pageNum : Nat
  ops : List PageOp
deriving DecidableEq, Repr

/-- The footer text written by `addFooter`: `"%s - Page %d"`. -/
def footerText (name : String) (n : Nat) : String :=
  name ++ " - Page " ++ Nat.repr n

/-- Model of `pdf.AddPage(); addFooter()` followed by resetting the cursor to the
top margin, as done at every page-start site in `generatePDF`. -/
def newPageM (name : String) (st : PlanState) : PlanState :=
  { currentY := margin, pageNum := st.pageNum + 1,
    ops := st.ops ++ [.startPage, .footer (footerText name (st.pageNum + 1))] }

/-- The code computes `remainingHeight := pageHeight - footerHeight - margin - currentY`. -/
def remainingH (L : LayoutK) (st : PlanState) : ℚ :=
  L.pageHeight - footerHeight - margin - st.currentY

/-- Model of `addErrorText`: break the page when the remaining space is strictly
less than the fixed error height plus spacing, place the message at
`(margin, currentY)`, advance the cursor. -/
def addErrorTextM (L : LayoutK) (name msg : String) (st : PlanState) : PlanState :=
  let st1 := if remainingH L st < errorHeight + L.spacing then newPageM name st else st
  { currentY := st1.currentY + errorHeight + L.spacing, pageNum := st1.pageNum,
    ops := st1.ops ++ [.placeError msg margin st1.currentY] }

/-- Lines 716–738 of `generatePDF`: convert the natural extent (points)
to millimetres and scale down proportionally only when the width
strictly exceeds the available width. -/
def scaledDims (L : LayoutK) (nw nh : ℚ) : ℚ × ℚ :=
  let w := nw * ptToMM
  let h := nh * ptToMM
  if availableWidth L < w then (availableWidth L, h * (availableWidth L / w)) else (w, h)

/-- Lines 739–751 of `generatePDF`: the page-break check against the
scaled height, the `ImageOptions` call at `(margin, currentY)` and the
cursor advance. -/
def placeImageDims (L : LayoutK) (name ref : String) (nw nh : ℚ) (st : PlanState) : PlanState :=
  let wh := scaledDims L nw nh
  let st1 := if remainingH L st < wh.2 + L.spacing then newPageM name st else st
  { currentY := st1.currentY + wh.2 + L.spacing, pageNum := st1.pageNum,
    ops := st1.ops ++ [.placeImage ref margin st1.currentY wh.1 wh.2] }

/-- Abstraction of the file-system / image-pipeline effects for one
image path: whether `os.Stat` finds the file, whether `cropImage`
returns without error, whether re-encoding the cropped raster succeeds,
and what `RegisterImageReader` / `RegisterImage` return (`none` models a
nil `ImageInfoType`; `some (w, h)` carries the registered extent in
points). -/
structure ImgOutcome where
  fileOk : Bool
  cropOk : Bool
  encodeOk : Bool
  registerCropped : Option (ℚ × ℚ)
  registerOriginal : Option (ℚ × ℚ)
deriving DecidableEq, Repr

/-- Which registration result lines 663–710 end up consulting: the
cropped buffer when crop and encode both succeeded, otherwise the
original file. -/
def regChoice (o : ImgOutcome) : Option (ℚ × ℚ) :=
  if o.cropOk then (if o.encodeOk then o.registerCropped else o.registerOriginal)
  else o.registerOriginal

/-- The cropped in-memory buffer (named `"cropped_" + songName`) is used
exactly when crop and encode both succeeded. -/
def croppedUsed (o : ImgOutcome) : Bool := o.cropOk && o.encodeOk

/-- Lines 656–751 for one resolved image path: missing file → in-line
error text; nil registration → `continue` (the entry leaves no trace in
the artifact); otherwise place the registered image. -/
def imageFileStep (L : LayoutK) (name : String) (env : String → ImgOutcome)
    (ref path : String) (st : PlanState) : PlanState :=
  let o := env path
  if o.fileOk then
    match regChoice o with
    | none => st
    | some wh =>
      placeImageDims L name (if croppedUsed o then "cropped_" ++ ref else path) wh.1 wh.2 st
  else
    addErrorTextM L name ("ERROR: Image file not found: " ++ path) st

/-- Embedding of Go's `strings.Split(s, "#")` on the character list. -/
def splitHash : List Char → List (List Char)
  | [] => [[]]
  | c :: rest =>
    if c = '#' then [] :: splitHash rest
    else
      match splitHash rest with
      | [] => [[c]]
      | h :: t => (c :: h) :: t

/-- Association-list lookup (first match wins). -/
def lookupA {α : Type} : List (String × α) → String → Option α
  | [], _ => none
  | (k, v) :: rest, key => if k = key then some v else lookupA rest key

/-- Lines 641–661: look the (post-override) image name up in the song's
image map; a missing variant becomes an in-line error text. -/
def songEntryCore (L : LayoutK) (name : String) (env : String → ImgOutcome)
    (imageMap : List (String × String)) (ref sname iname : String)
    (st : PlanState) : PlanState :=
  match lookupA imageMap iname with
  | none =>
    addErrorTextM L name
      ("ERROR: No image '" ++ iname ++ "' found for song '" ++ sname ++ "'") st
  | some path => imageFileStep L name env ref path st

/-- Lines 614–648 for one gig song reference: split on `#`, look the
song up, apply the image override when that variant exists for the song,
then continue with `songEntryCore`. -/
def entryStep (L : LayoutK) (name : String)
    (songMap : List (String × List (String × String)))
    (imageOverride : String) (env : String → ImgOutcome)
    (ref : String) (st : PlanState) : PlanState :=
  let parts := splitHash ref.data
  let sname := String.mk (parts.headD [])
  let iname0 := if parts.length > 1 then String.mk (parts.getD 1 []) else "default"
  match lookupA songMap sname with
  | none =>
    addErrorTextM L name ("ERROR: No configuration found for song '" ++ sname ++ "'") st
  | some imageMap =>
    let iname :=
      if imageOverride != "" && (lookupA imageMap imageOverride).isSome
      then imageOverride else iname0
    songEntryCore L name env imageMap ref sname iname st

/-- Lines 606–611: a set after the first forces a page break exactly
when the cursor has advanced past the top margin. -/
def setStartM (name : String) (idx : Nat) (st : PlanState) : PlanState :=
  if 0 < idx ∧ margin < st.currentY then newPageM name st else st

/-- One set: the set-boundary rule followed by the fold over its songs. -/
def setStep (L : LayoutK) (name : String)
    (songMap : List (String × List (String × String)))
    (imageOverride : String) (env : String → ImgOutcome)
    (st : PlanState) (idx : Nat) (songs : List String) : PlanState :=
  songs.foldl (fun s r => entryStep L name songMap imageOverride env r s)
    (setStartM name idx st)

/-- Lines 556–574: build one song's image map; `Images` entries shadow
the backward-compatible single `Image` (registered under `"default"`). -/
def buildImageMap (image : String) (images : List (String × String)) :
    List (String × String) :=
  images ++ (if image != "" then [("default", image)] else [])

structure SongC where
  nickname : String
  image : String
  images : List (String × String)
deriving DecidableEq, Repr

/-- The song map; a later song with the same nickname overwrites an
earlier one (Go map assignment), hence the reverse before first-match
lookup. -/
def buildSongMap (songs : List SongC) : List (String × List (String × String)) :=
  (songs.map (fun s => (s.nickname, buildImageMap s.image s.images))).reverse

/-- The whole placement loop of `generatePDF`: first page and footer,
then the indexed fold over sets. -/
def generatePlan (L : LayoutK) (name : String)
    (songMap : List (String × List (String × String)))
    (imageOverride : String) (env : String → ImgOutcome)
    (sets : List (List String)) : PlanState :=
  let st0 := newPageM name { currentY := margin, pageNum := 0, ops := [] }
  (sets.enum).foldl
    (fun st p => setStep L name songMap imageOverride env st p.1 p.2) st0

/-- Operations that leave a visible mark in the artifact body. -/
def isVisible : PageOp → Bool
  | .placeImage _ _ _ _ _ => true
  | .placeError _ _ _ => true
  | _ => false

/-- Well-formed page structure: the operation stream is a sequence of
pages, each opened by `startPage` immediately followed by exactly one
footer carrying the next page number, then body (placement) operations
only. -/
inductive PagesOk (name : String) : Nat → List PageOp → Prop where
  | nil : PagesOk name 0 []
  | page {n : Nat} {ops body : List PageOp} :
      PagesOk name n ops → (∀ op ∈ body, isVisible op = true) →
      PagesOk name (n + 1)
        (ops ++ PageOp.startPage :: PageOp.footer (footerText name (n + 1)) :: body)

/-! ### Concrete fixtures used by witnesses and counterexamples -/

/-- A 3x3 image whose only foreground pixel is at (1,1). -/
def imgContent : GoImage :=
  ⟨0, 0, 3, 3, fun x y =>
    if x = 1 ∧ y = 1 then ⟨0, 0, 0, 65535⟩ else ⟨65535, 65535, 65535, 65535⟩⟩

/-- A 2x2 all-white, fully opaque image. -/
def imgWhite : GoImage := ⟨0, 0, 2, 2, fun _ _ => ⟨65535, 65535, 65535, 65535⟩⟩

def LW : LayoutK := ⟨210, 297, 5⟩

/-- The plan-state invariant: at least one page has been started and the
emitted operations form a well-paged stream. -/
def Inv (name : String) (st : PlanState) : Prop :=
  1 ≤ st.pageNum ∧ PagesOk name st.pageNum st.ops

def sm9 : List (String × List (String × String)) :=
  buildSongMap [⟨"ballad", "ballad.png", []⟩]

def env9 : String → ImgOutcome := fun _ => ⟨true, true, true, some (100, 80), some (100, 80)⟩

def st9 : PlanState := ⟨margin, 1, [.startPage, .footer "Gig - Page 1"]⟩

/-! ### Helper lemmas -/

theorem chan8_lt (r a : Nat) (hr : r ≤ 255) (ha : a ≤ 255) :
    r * 257 * a / 255 / 256 < 256 := by
  have h1 : r * 257 * a ≤ 255 * 257 * 255 :=
    Nat.mul_le_mul (Nat.mul_le_mul_right 257 hr) ha
  have h2 : r * 257 * a / 255 ≤ 255 * 257 * 255 / 255 := Nat.div_le_div_right h1
  omega

theorem chan8_fullAlpha (r : Nat) (hr : r ≤ 255) : r * 257 * 255 / 255 / 256 % 256 = r := by
  have h1 : r * 257 * 255 / 255 = r * 257 := by omega
  have h2 : r * 257 / 256 = r := by omega
  rw [h1, h2, Nat.mod_eq_of_lt (by omega)]

theorem bool_eq_of_iff {x y : Bool} (h : x = true ↔ y = true) : x = y := by
  cases x <;> cases y <;> simp_all

theorem iswt_iff (c : Color16) :
    isWhiteOrTransparent c = true ↔
      (c.a = 0 ∨ (240 ≤ c.r / 256 % 256 ∧ 240 ≤ c.g / 256 % 256 ∧
        240 ≤ c.b / 256 % 256)) := by
  unfold isWhiteOrTransparent
  by_cases h : c.a = 0
  · simp [h]
  · simp [h, and_assoc]

/-- C1 counterexample. The claim says the detector compares *raw* channel values.
It does not: `isWhiteOrTransparent` observes pixels through Go's
`RGBA()`, which alpha-premultiplies.  A raw-white pixel at alpha 128 is
background by the claimed rule (all raw channels are 255 ≥ 240) but the
detector classifies it as foreground (premultiplied channels are 128). -/
theorem c1_counterexample :
    isWhiteOrTransparent (NPixel.rgba ⟨255, 255, 255, 128⟩) = false ∧
    specBackground ⟨255, 255, 255, 128⟩ = true := by
  decide

/-- C1 (amended). A pixel is classified background iff its alpha is
0 or all three *alpha-premultiplied* 8-bit channel values are at least
240; for fully opaque pixels (alpha = 255) this coincides with comparing
the raw channel values against 240. -/
theorem c1_background_rule (p : NPixel) (hr : p.r ≤ 255) (hg : p.g ≤ 255)
    (hb : p.b ≤ 255) (ha : p.a ≤ 255) :
    (isWhiteOrTransparent p.rgba = true ↔
      (p.a = 0 ∨ (240 ≤ p.r * 257 * p.a / 255 / 256 ∧
        240 ≤ p.g * 257 * p.a / 255 / 256 ∧ 240 ≤ p.b * 257 * p.a / 255 / 256))) ∧
    (p.a = 255 → isWhiteOrTransparent p.rgba = specBackground p) := by
  obtain ⟨r, g, b, a⟩ := p
  simp only at hr hg hb ha
  have hk : ∀ x : Nat, x ≤ 255 → x * 257 * a / 255 / 256 % 256 = x * 257 * a / 255 / 256 :=
    fun x hx => Nat.mod_eq_of_lt (chan8_lt x a hx ha)
  constructor
  · rw [iswt_iff]
    simp only [NPixel.rgba]
    rw [hk r hr, hk g hg, hk b hb]
    constructor
    · rintro (h | h)
      · left
        omega
      · right
        exact h
    · rintro (h | h)
      · left
        omega
      · right
        exact h
  · intro h255
    subst h255
    have e1 : isWhiteOrTransparent (NPixel.rgba ⟨r, g, b, 255⟩) = true ↔
        (240 ≤ r ∧ 240 ≤ g ∧ 240 ≤ b) := by
      rw [iswt_iff]
      simp only [NPixel.rgba]
      rw [chan8_fullAlpha r hr, chan8_fullAlpha g hg, chan8_fullAlpha b hb]
      constructor
      · rintro (h | h)
        · omega
        · exact h
      · intro h
        right
        exact h
    have e2 : specBackground ⟨r, g, b, 255⟩ = true ↔ (240 ≤ r ∧ 240 ≤ g ∧ 240 ≤ b) := by
      simp [specBackground, and_assoc]
    exact bool_eq_of_iff (e1.trans e2.symm)

/-- Witness for `c1_background_rule` at the opaque pixel
`(250, 250, 250, 255)`. -/
theorem c1_background_rule_witness :
    ((250 : Nat) ≤ 255 ∧ (255 : Nat) ≤ 255) ∧
    ((isWhiteOrTransparent (NPixel.rgba ⟨250, 250, 250, 255⟩) = true ↔
      ((255 : Nat) = 0 ∨ (240 ≤ 250 * 257 * 255 / 255 / 256 ∧
        240 ≤ 250 * 257 * 255 / 255 / 256 ∧ 240 ≤ 250 * 257 * 255 / 255 / 256))) ∧
     ((255 : Nat) = 255 →
      isWhiteOrTransparent (NPixel.rgba ⟨250, 250, 250, 255⟩) =
        specBackground ⟨250, 250, 250, 255⟩)) :=
  ⟨⟨by decide, by decide⟩,
    c1_background_rule ⟨250, 250, 250, 255⟩ (by decide) (by decide) (by decide) (by decide)⟩

/-! ### C3 / C4: the crop invariant and the no-crop-needed path -/

theorem col_false_of_allBg (img : GoImage) (h : AllBg img) (x : Int)
    (hx1 : img.minX ≤ x) (hx2 : x < img.maxX) : colHasContent img x = false := by
  unfold colHasContent
  rw [List.any_eq_false]
  intro j hj
  rw [List.mem_range] at hj
  simp [h x (img.minY + j) hx1 hx2 (by omega) (by omega)]

theorem row_false_of_allBg (img : GoImage) (h : AllBg img) (y : Int)
    (hy1 : img.minY ≤ y) (hy2 : y < img.maxY) : rowHasContent img y = false := by
  unfold rowHasContent
  rw [List.any_eq_false]
  intro i hi
  rw [List.mem_range] at hi
  simp [h (img.minX + i) y (by omega) (by omega) hy1 hy2]

theorem findLeft_of_allBg (img : GoImage) (h : AllBg img) :
    findLeftMostContent img = img.minX := by
  unfold findLeftMostContent
  have hn : (List.range (img.maxX - img.minX).toNat).find?
      (fun (i : Nat) => colHasContent img (img.minX + (i : Int))) = none := by
    rw [List.find?_eq_none]
    intro i hi
    rw [List.mem_range] at hi
    simp [col_false_of_allBg img h (img.minX + i) (by omega) (by omega)]
  rw [hn]

theorem findTop_of_allBg (img : GoImage) (h : AllBg img) :
    findTopMostContent img = img.minY := by
  unfold findTopMostContent
  have hn : (List.range (img.maxY - img.minY).toNat).find?
      (fun (j : Nat) => rowHasContent img (img.minY + (j : Int))) = none := by
    rw [List.find?_eq_none]
    intro j hj
    rw [List.mem_range] at hj
    simp [row_false_of_allBg img h (img.minY + j) (by omega) (by omega)]
  rw [hn]

theorem findBottom_of_allBg (img : GoImage) (h : AllBg img) :
    findBottomMostContent img = img.maxY := by
  unfold findBottomMostContent
  have hn : (List.range (img.maxY - img.minY).toNat).find?
      (fun (j : Nat) => rowHasContent img (img.maxY - 1 - (j : Int))) = none := by
    rw [List.find?_eq_none]
    intro j hj
    rw [List.mem_range] at hj
    simp [row_false_of_allBg img h (img.maxY - 1 - j) (by omega) (by omega)]
  rw [hn]

theorem findRight_of_allBg (img : GoImage) (h : AllBg img) :
    findRightMostContent img = img.maxX := by
  unfold findRightMostContent
  have hn : (List.range (img.maxX - img.minX).toNat).find?
      (fun (i : Nat) => colHasContent img (img.maxX - 1 - (i : Int))) = none := by
    rw [List.find?_eq_none]
    intro i hi
    rw [List.mem_range] at hi
    simp [col_false_of_allBg img h (img.maxX - 1 - i) (by omega) (by omega)]
  rw [hn]

/-- C3. For computed bounds with positive width and height that crop
at least one side, `cropDecoded` returns a fresh `(0,0)`-based buffer of
exactly `(right-left) x (bottom-top)` pixels holding the source
rectangle; for a degenerate rectangle (`right-left <= 0` or
`bottom-top <= 0`) the original image is returned unchanged. -/
theorem c3_crop (img : GoImage) :
    (¬ (findLeftMostContent img ≤ img.minX ∧ findTopMostContent img ≤ img.minY ∧
          img.maxY ≤ findBottomMostContent img ∧ img.maxX ≤ findRightMostContent img) →
      0 < findRightMostContent img - findLeftMostContent img →
      0 < findBottomMostContent img - findTopMostContent img →
      (cropDecoded img).minX = 0 ∧ (cropDecoded img).minY = 0 ∧
      (cropDecoded img).maxX = findRightMostContent img - findLeftMostContent img ∧
      (cropDecoded img).maxY = findBottomMostContent img - findTopMostContent img ∧
      ∀ x y : Int, (cropDecoded img).px x y =
        img.px (findLeftMostContent img + x) (findTopMostContent img + y)) ∧
    ((findRightMostContent img - findLeftMostContent img ≤ 0 ∨
      findBottomMostContent img - findTopMostContent img ≤ 0) →
      cropDecoded img = img) := by
  constructor
  · intro hne hw hh
    simp only [cropDecoded]
    rw [if_neg hne, if_neg (by omega :
      ¬ (findRightMostContent img - findLeftMostContent img ≤ 0 ∨
         findBottomMostContent img - findTopMostContent img ≤ 0))]
    exact ⟨rfl, rfl, rfl, rfl, fun x y => rfl⟩
  · intro hdeg
    simp only [cropDecoded]
    by_cases hfull : findLeftMostContent img ≤ img.minX ∧ findTopMostContent img ≤ img.minY ∧
        img.maxY ≤ findBottomMostContent img ∧ img.maxX ≤ findRightMostContent img
    · rw [if_pos hfull]
    · rw [if_neg hfull, if_pos hdeg]

/-- C4. When the four computed content bounds equal the full image
extent the no-crop branch fires and the decoded image itself is returned
(no new buffer); in particular an all-background image (e.g. pure white
with alpha 255) makes every directional scan fall back to the original
edge, so it is returned unchanged. -/
theorem c4_noCropNeeded (img : GoImage) :
    ((findLeftMostContent img = img.minX ∧ findTopMostContent img = img.minY ∧
      findBottomMostContent img = img.maxY ∧ findRightMostContent img = img.maxX) →
      cropDecoded img = img) ∧
    (AllBg img →
      (findLeftMostContent img = img.minX ∧ findTopMostContent img = img.minY ∧
       findBottomMostContent img = img.maxY ∧ findRightMostContent img = img.maxX) ∧
      cropDecoded img = img) := by
  have part1 : (findLeftMostContent img = img.minX ∧ findTopMostContent img = img.minY ∧
      findBottomMostContent img = img.maxY ∧ findRightMostContent img = img.maxX) →
      cropDecoded img = img := by
    rintro ⟨h1, h2, h3, h4⟩
    simp only [cropDecoded]
    rw [if_pos ⟨le_of_eq h1, le_of_eq h2, le_of_eq h3.symm, le_of_eq h4.symm⟩]
  refine ⟨part1, fun hbg => ?_⟩
  have h1 := findLeft_of_allBg img hbg
  have h2 := findTop_of_allBg img hbg
  have h3 := findBottom_of_allBg img hbg
  have h4 := findRight_of_allBg img hbg
  exact ⟨⟨h1, h2, h3, h4⟩, part1 ⟨h1, h2, h3, h4⟩⟩

/-- Witness for `c3_crop`: cropping the 3x3 image with content only at
(1,1) yields a fresh 1x1 buffer holding that pixel. -/
theorem c3_crop_witness :
    (¬ (findLeftMostContent imgContent ≤ imgContent.minX ∧
        findTopMostContent imgContent ≤ imgContent.minY ∧
        imgContent.maxY ≤ findBottomMostContent imgContent ∧
        imgContent.maxX ≤ findRightMostContent imgContent) ∧
     0 < findRightMostContent imgContent - findLeftMostContent imgContent ∧
     0 < findBottomMostContent imgContent - findTopMostContent imgContent) ∧
    ((cropDecoded imgContent).minX = 0 ∧ (cropDecoded imgContent).minY = 0 ∧
     (cropDecoded imgContent).maxX =
       findRightMostContent imgContent - findLeftMostContent imgContent ∧
     (cropDecoded imgContent).maxY =
       findBottomMostContent imgContent - findTopMostContent imgContent ∧
     ∀ x y : Int, (cropDecoded imgContent).px x y =
       imgContent.px (findLeftMostContent imgContent + x)
         (findTopMostContent imgContent + y)) :=
  ⟨⟨by decide, by decide, by decide⟩,
    (c3_crop imgContent).1 (by decide) (by decide) (by decide)⟩

/-- Witness for `c4_noCropNeeded` on the all-white opaque image. -/
theorem c4_noCropNeeded_witness :
    AllBg imgWhite ∧
    ((findLeftMostContent imgWhite = imgWhite.minX ∧
      findTopMostContent imgWhite = imgWhite.minY ∧
      findBottomMostContent imgWhite = imgWhite.maxY ∧
      findRightMostContent imgWhite = imgWhite.maxX) ∧
     cropDecoded imgWhite = imgWhite) :=
  ⟨fun _ _ _ _ _ _ => (rfl : isWhiteOrTransparent ⟨65535, 65535, 65535, 65535⟩ = true),
   (c4_noCropNeeded imgWhite).2
     (fun _ _ _ _ _ _ => (rfl : isWhiteOrTransparent ⟨65535, 65535, 65535, 65535⟩ = true))⟩

/-! ### C5 / C6 / C7: scaling, page-break tie-break, set boundaries -/

/-- C5. If the natural display width (points converted to page
units) fits the available content width, the displayed dimensions equal
the natural ones (no up- or downscaling); otherwise the displayed width
is exactly the available width and the height is scaled by the same
factor, preserving the aspect ratio exactly in rational arithmetic. -/
theorem c5_scaling (L : LayoutK) (nw nh : ℚ) :
    (nw * ptToMM ≤ availableWidth L →
      scaledDims L nw nh = (nw * ptToMM, nh * ptToMM)) ∧
    (0 ≤ availableWidth L → availableWidth L < nw * ptToMM →
      (scaledDims L nw nh).1 = availableWidth L ∧
      (scaledDims L nw nh).2 * (nw * ptToMM) = nh * ptToMM * availableWidth L) := by
  constructor
  · intro h
    simp only [scaledDims]
    rw [if_neg (not_lt.mpr h)]
  · intro h0 h
    have hpos : 0 < nw * ptToMM := lt_of_le_of_lt h0 h
    simp only [scaledDims]
    rw [if_pos h]
    refine ⟨rfl, ?_⟩
    field_simp

/-- Witness for `c5_scaling`: a 100-point-wide image is left at natural
size, a 1000-point-wide image is scaled to exactly the available width
with the aspect ratio preserved. -/
theorem c5_scaling_witness :
    ((100 : ℚ) * ptToMM ≤ availableWidth LW ∧
      scaledDims LW 100 80 = (100 * ptToMM, 80 * ptToMM)) ∧
    ((0 : ℚ) ≤ availableWidth LW ∧ availableWidth LW < 1000 * ptToMM ∧
      (scaledDims LW 1000 80).1 = availableWidth LW ∧
      (scaledDims LW 1000 80).2 * (1000 * ptToMM) = 80 * ptToMM * availableWidth LW) := by
  have h1 : (100 : ℚ) * ptToMM ≤ availableWidth LW := by
    norm_num [ptToMM, availableWidth, LW, margin]
  have h2 : (0 : ℚ) ≤ availableWidth LW := by norm_num [availableWidth, LW, margin]
  have h3 : availableWidth LW < 1000 * ptToMM := by
    norm_num [ptToMM, availableWidth, LW, margin]
  exact ⟨⟨h1, (c5_scaling LW 100 80).1 h1⟩,
    h2, h3, (c5_scaling LW 1000 80).2 h2 h3⟩

/-- C6. For image blocks (with their scaled height) and for error
blocks (fixed height 10), a new page is started iff the remaining space
is strictly less than the block height plus spacing; a block that fits
exactly stays on the current page and is placed at the current cursor. -/
theorem c6_pageBreakRule (L : LayoutK) (name msg ref : String) (nw nh : ℚ)
    (st : PlanState) :
    ((addErrorTextM L name msg st).pageNum = st.pageNum + 1 ↔
      remainingH L st < errorHeight + L.spacing) ∧
    (remainingH L st = errorHeight + L.spacing →
      addErrorTextM L name msg st =
        { currentY := st.currentY + errorHeight + L.spacing, pageNum := st.pageNum,
          ops := st.ops ++ [.placeError msg margin st.currentY] }) ∧
    ((placeImageDims L name ref nw nh st).pageNum = st.pageNum + 1 ↔
      remainingH L st < (scaledDims L nw nh).2 + L.spacing) ∧
    (remainingH L st = (scaledDims L nw nh).2 + L.spacing →
      placeImageDims L name ref nw nh st =
        { currentY := st.currentY + (scaledDims L nw nh).2 + L.spacing,
          pageNum := st.pageNum,
          ops := st.ops ++ [.placeImage ref margin st.currentY (scaledDims L nw nh).1
            (scaledDims L nw nh).2] }) := by
  refine ⟨?_, ?_, ?_, ?_⟩
  · by_cases hc : remainingH L st < errorHeight + L.spacing
    · simp [addErrorTextM, hc, newPageM]
    · have hp : (addErrorTextM L name msg st).pageNum = st.pageNum := by
        simp [addErrorTextM, hc]
      rw [hp]
      constructor
      · intro he
        omega
      · intro hlt
        exact absurd hlt hc
  · intro he
    have hc : ¬ remainingH L st < errorHeight + L.spacing := by rw [he]; exact lt_irrefl _
    simp only [addErrorTextM, if_neg hc]
  · by_cases hc : remainingH L st < (scaledDims L nw nh).2 + L.spacing
    · simp [placeImageDims, hc, newPageM]
    · have hp : (placeImageDims L name ref nw nh st).pageNum = st.pageNum := by
        simp [placeImageDims, hc]
      rw [hp]
      constructor
      · intro he
        omega
      · intro hlt
        exact absurd hlt hc
  · intro he
    have hc : ¬ remainingH L st < (scaledDims L nw nh).2 + L.spacing := by
      rw [he]; exact lt_irrefl _
    simp only [placeImageDims, if_neg hc]

/-- Witness for `c6_pageBreakRule`: with page height 297 and spacing 5,
a cursor at 257 leaves exactly 15 = 10 + 5 units, so the error block
fits exactly and stays on page 1. -/
theorem c6_pageBreakRule_witness :
    remainingH LW { currentY := 257, pageNum := 1, ops := [] } =
      errorHeight + LW.spacing ∧
    addErrorTextM LW "Gig" "boom" { currentY := 257, pageNum := 1, ops := [] } =
      { currentY := (257 : ℚ) + errorHeight + LW.spacing, pageNum := 1,
        ops := [.placeError "boom" margin 257] } := by
  have he : remainingH LW { currentY := 257, pageNum := 1, ops := [] } =
      errorHeight + LW.spacing := by
    norm_num [remainingH, LW, footerHeight, margin, errorHeight]
  refine ⟨he, ?_⟩
  have h := (c6_pageBreakRule LW "Gig" "boom" "r" 0 0
    { currentY := 257, pageNum := 1, ops := [] }).2.1 he
  simpa using h

/-- C7. Entering a set after the first forces a page break iff the
cursor has advanced past the top margin; when the cursor still equals
the margin the state is untouched and the sets share the page. -/
theorem c7_setBoundary (name : String) (idx : Nat) (st : PlanState) (hidx : 0 < idx) :
    (((setStartM name idx st).pageNum = st.pageNum + 1 ∧
      (setStartM name idx st).currentY = margin) ↔ margin < st.currentY) ∧
    (st.currentY = margin → setStartM name idx st = st) := by
  constructor
  · by_cases hc : margin < st.currentY
    · simp [setStartM, hidx, hc, newPageM]
    · have hs : setStartM name idx st = st := by
        simp [setStartM, hc]
      rw [hs]
      constructor
      · rintro ⟨he, -⟩
        omega
      · intro hlt
        exact absurd hlt hc
  · intro h
    have : ¬ (0 < idx ∧ margin < st.currentY) := by
      rintro ⟨-, hlt⟩
      rw [h] at hlt
      exact lt_irrefl _ hlt
    simp [setStartM, this]

/-- Witness for `c7_setBoundary` at set index 1: a cursor at 50 > 10
forces the break; a cursor at the margin leaves the state unchanged. -/
theorem c7_setBoundary_witness :
    (0 < 1 ∧
      (((setStartM "Gig" 1 { currentY := 50, pageNum := 1, ops := [] }).pageNum = 2 ∧
        (setStartM "Gig" 1 { currentY := 50, pageNum := 1, ops := [] }).currentY = margin) ↔
        margin < (50 : ℚ))) ∧
    ((margin : ℚ) = margin →
      setStartM "Gig" 1 { currentY := margin, pageNum := 1, ops := [] } =
        { currentY := margin, pageNum := 1, ops := [] }) := by
  constructor
  · exact ⟨Nat.zero_lt_one,
      (c7_setBoundary "Gig" 1 { currentY := 50, pageNum := 1, ops := [] }
        Nat.zero_lt_one).1⟩
  · exact (c7_setBoundary "Gig" 1 { currentY := margin, pageNum := 1, ops := [] }
      Nat.zero_lt_one).2

/-! ### C8: pagination invariant -/

theorem pagesOk_body_append {name : String} {n : Nat} {ops l : List PageOp}
    (h : PagesOk name n ops) (hn : 1 ≤ n) (hl : ∀ op ∈ l, isVisible op = true) :
    PagesOk name n (ops ++ l) := by
  cases h with
  | nil => omega
  | @page m ops' body h' hb =>
    have e : (ops' ++ PageOp.startPage :: PageOp.footer (footerText name (m + 1)) :: body)
        ++ l
        = ops' ++ PageOp.startPage :: PageOp.footer (footerText name (m + 1)) ::
            (body ++ l) := by
      simp
    rw [e]
    refine PagesOk.page h' ?_
    intro op hop
    rcases List.mem_append.mp hop with h1 | h2
    · exact hb op h1
    · exact hl op h2

theorem inv_newPageM {name : String} {st : PlanState}
    (h : PagesOk name st.pageNum st.ops) : Inv name (newPageM name st) := by
  refine ⟨Nat.succ_le_succ (Nat.zero_le _), ?_⟩
  have hp := @PagesOk.page name st.pageNum st.ops [] h (by intro op hop; cases hop)
  simpa [newPageM] using hp

theorem inv_addErrorTextM {L : LayoutK} {name msg : String} {st : PlanState}
    (h : Inv name st) : Inv name (addErrorTextM L name msg st) := by
  obtain ⟨hn, hp⟩ := h
  by_cases hc : remainingH L st < errorHeight + L.spacing
  · simp only [addErrorTextM, if_pos hc]
    obtain ⟨hn1, hp1⟩ := inv_newPageM hp
    exact ⟨hn1, pagesOk_body_append hp1 hn1 (by simp [isVisible])⟩
  · simp only [addErrorTextM, if_neg hc]
    exact ⟨hn, pagesOk_body_append hp hn (by simp [isVisible])⟩

theorem inv_placeImageDims {L : LayoutK} {name ref : String} {nw nh : ℚ}
    {st : PlanState} (h : Inv name st) : Inv name (placeImageDims L name ref nw nh st) := by
  obtain ⟨hn, hp⟩ := h
  by_cases hc : remainingH L st < (scaledDims L nw nh).2 + L.spacing
  · simp only [placeImageDims, if_pos hc]
    obtain ⟨hn1, hp1⟩ := inv_newPageM hp
    exact ⟨hn1, pagesOk_body_append hp1 hn1 (by simp [isVisible])⟩
  · simp only [placeImageDims, if_neg hc]
    exact ⟨hn, pagesOk_body_append hp hn (by simp [isVisible])⟩

theorem inv_imageFileStep {L : LayoutK} {name : String} {env : String → ImgOutcome}
    {ref path : String} {st : PlanState} (h : Inv name st) :
    Inv name (imageFileStep L name env ref path st) := by
  unfold imageFileStep
  by_cases hf : (env path).fileOk = true
  · rw [if_pos hf]
    cases hr : regChoice (env path) with
    | none => simpa [hr] using h
    | some wh =>
      simp only [hr]
      exact inv_placeImageDims h
  · rw [if_neg hf]
    exact inv_addErrorTextM h

theorem inv_songEntryCore {L : LayoutK} {name : String} {env : String → ImgOutcome}
    {imageMap : List (String × String)} {ref sname iname : String} {st : PlanState}
    (h : Inv name st) : Inv name (songEntryCore L name env imageMap ref sname iname st) := by
  unfold songEntryCore
  cases hm : lookupA imageMap iname with
  | none =>
    simp only [hm]
    exact inv_addErrorTextM h
  | some path =>
    simp only [hm]
    exact inv_imageFileStep h

theorem inv_entryStep {L : LayoutK} {name : String}
    {sm : List (String × List (String × String))} {ov : String}
    {env : String → ImgOutcome} {ref : String} {st : PlanState} (h : Inv name st) :
    Inv name (entryStep L name sm ov env ref st) := by
  unfold entryStep
  cases hm : lookupA sm (String.mk ((splitHash ref.data).headD [])) with
  | none =>
    simp only [hm]
    exact inv_addErrorTextM h
  | some imageMap =>
    simp only [hm]
    exact inv_songEntryCore h

theorem inv_entryFold {L : LayoutK} {name : String}
    {sm : List (String × List (String × String))} {ov : String}
    {env : String → ImgOutcome} :
    ∀ (songs : List String) (st : PlanState), Inv name st →
      Inv name (songs.foldl (fun s r => entryStep L name sm ov env r s) st)
  | [], _, h => h
  | _ :: rest, _, h => inv_entryFold rest _ (inv_entryStep h)

theorem inv_setStartM {name : String} {idx : Nat} {st : PlanState} (h : Inv name st) :
    Inv name (setStartM name idx st) := by
  unfold setStartM
  by_cases hc : 0 < idx ∧ margin < st.currentY
  · rw [if_pos hc]
    exact inv_newPageM h.2
  · rw [if_neg hc]
    exact h

theorem inv_setStep {L : LayoutK} {name : String}
    {sm : List (String × List (String × String))} {ov : String}
    {env : String → ImgOutcome} {st : PlanState} {idx : Nat} {songs : List String}
    (h : Inv name st) : Inv name (setStep L name sm ov env st idx songs) :=
  inv_entryFold songs _ (inv_setStartM h)

theorem inv_generatePlan (L : LayoutK) (name : String)
    (sm : List (String × List (String × String))) (ov : String)
    (env : String → ImgOutcome) (sets : List (List String)) :
    Inv name (generatePlan L name sm ov env sets) := by
  unfold generatePlan
  have hfold : ∀ (ps : List (Nat × List String)) (st : PlanState), Inv name st →
      Inv name (ps.foldl (fun st p => setStep L name sm ov env st p.1 p.2) st) := by
    intro ps
    induction ps with
    | nil => exact fun st h => h
    | cons p rest ih => exact fun st h => ih _ (inv_setStep h)
  exact hfold _ _ (inv_newPageM PagesOk.nil)

/-- C8. Every generated plan is a well-paged stream: pages are
numbered 1, 2, … in order (one increment per started page, including
the implicit first page), each `startPage` is immediately followed by
exactly one footer carrying that page number, and the footer text has
the document name and the page number embedded verbatim. -/
theorem c8_pagination (L : LayoutK) (name : String)
    (sm : List (String × List (String × String))) (ov : String)
    (env : String → ImgOutcome) (sets : List (List String)) :
    1 ≤ (generatePlan L name sm ov env sets).pageNum ∧
    PagesOk name (generatePlan L name sm ov env sets).pageNum
      (generatePlan L name sm ov env sets).ops ∧
    ∀ n : Nat, (∃ rest : String, footerText name n = name ++ rest) ∧
      (∃ pre : String, footerText name n = pre ++ Nat.repr n) := by
  obtain ⟨h1, h2⟩ := inv_generatePlan L name sm ov env sets
  refine ⟨h1, h2, fun n => ⟨⟨" - Page " ++ Nat.repr n, ?_⟩, ⟨name ++ " - Page ", rfl⟩⟩⟩
  simp [footerText, String.append_assoc]

/-! ### C2: error absorption and the silent-skip path -/

/-- C9 counterexample. The claim gives the error text as
`"No image 'acoustic' found for song 'ballad'"`.  The code places an
in-line error entry, but its text carries an `"ERROR: "` prefix, so the
claimed text is not the placed text. -/
theorem c9_counterexample :
    (entryStep LW "Gig" sm9 "" env9 "ballad#acoustic" st9).ops =
      st9.ops ++ [.placeError "ERROR: No image 'acoustic' found for song 'ballad'"
        margin st9.currentY] ∧
    "ERROR: No image 'acoustic' found for song 'ballad'" ≠
      "No image 'acoustic' found for song 'ballad'" := by
  constructor
  · have hstep : entryStep LW "Gig" sm9 "" env9 "ballad#acoustic" st9 =
        addErrorTextM LW "Gig" "ERROR: No image 'acoustic' found for song 'ballad'" st9 :=
      rfl
    rw [hstep]
    have hc : ¬ remainingH LW st9 < errorHeight + LW.spacing := by
      norm_num [remainingH, st9, LW, footerHeight, margin, errorHeight]
    simp only [addErrorTextM, if_neg hc]
  · decide

/-- C9 (amended). For the reference `"ballad#acoustic"` with
`"ballad"` configured but lacking an `"acoustic"` variant (and no image
override), the entry is handled exactly as an in-line error text
`"ERROR: No image 'acoustic' found for song 'ballad'"`, and layout
continues from the state that error placement produces. -/
theorem c9_missingVariant (L : LayoutK) (name : String)
    (sm : List (String × List (String × String))) (m : List (String × String))
    (env : String → ImgOutcome) (st : PlanState)
    (hm : lookupA sm "ballad" = some m) (hv : lookupA m "acoustic" = none) :
    entryStep L name sm "" env "ballad#acoustic" st =
      addErrorTextM L name "ERROR: No image 'acoustic' found for song 'ballad'" st := by
  have h1 : entryStep L name sm "" env "ballad#acoustic" st =
      (match lookupA sm "ballad" with
       | none => addErrorTextM L name "ERROR: No configuration found for song 'ballad'" st
       | some imageMap =>
           songEntryCore L name env imageMap "ballad#acoustic" "ballad" "acoustic" st) :=
    rfl
  rw [hm] at h1
  have h2 : entryStep L name sm "" env "ballad#acoustic" st =
      songEntryCore L name env m "ballad#acoustic" "ballad" "acoustic" st := h1
  rw [h2]
  unfold songEntryCore
  rw [hv]
  rfl

/-- Witness for `c9_missingVariant` on a one-song config. -/
theorem c9_missingVariant_witness :
    lookupA [("ballad", [("default", "b.png")])] "ballad" = some [("default", "b.png")] ∧
    lookupA [("default", "b.png")] "acoustic" = none ∧
    entryStep LW "Gig" [("ballad", [("default", "b.png")])] "" env9 "ballad#acoustic" st9 =
      addErrorTextM LW "Gig" "ERROR: No image 'acoustic' found for song 'ballad'" st9 :=
  ⟨rfl, rfl, c9_missingVariant LW "Gig" [("ballad", [("default", "b.png")])]
    [("default", "b.png")] env9 st9 rfl rfl⟩

/-! ### C10: the image-override rule -/

/-- C10. For every song entry — a plain `nickname` reference, whose
requested variant is the implicit `"default"`, or an explicit
`nickname#variant` reference — with an image override set: when the
override variant exists in the song's image map, the entry is processed
exactly as if that variant had been requested (overriding even an
explicit suffix); otherwise the variant from the gig reference is used
unchanged. -/
theorem c10_imageOverride (L : LayoutK) (name : String)
    (sm : List (String × List (String × String))) (ov : String)
    (env : String → ImgOutcome) (ref s v : String) (m : List (String × String))
    (st : PlanState) (hov : ov ≠ "")
    (hsplit : (splitHash ref.data = [s.data] ∧ v = "default") ∨
      splitHash ref.data = [s.data, v.data])
    (hm : lookupA sm s = some m) :
    ((lookupA m ov).isSome = true →
      entryStep L name sm ov env ref st = songEntryCore L name env m ref s ov st) ∧
    ((lookupA m ov).isSome = false →
      entryStep L name sm ov env ref st = songEntryCore L name env m ref s v st) := by
  have es : String.mk s.data = s := rfl
  have ev : String.mk v.data = v := rfl
  have hb : (ov != "") = true := bne_iff_ne.mpr hov
  rcases hsplit with ⟨hsp, hveq⟩ | hsp
  · constructor
    · intro hsome
      unfold entryStep
      rw [hsp]
      simp only [List.headD_cons, List.length_cons, List.length_nil, es]
      rw [hm]
      simp only [hb, hsome, Bool.true_and]
      simp
    · intro hnone
      unfold entryStep
      rw [hsp]
      simp only [List.headD_cons, List.length_cons, List.length_nil, es]
      rw [hm]
      simp only [hb, hnone, Bool.true_and, Bool.and_false, if_neg]
      subst hveq
      simp
  · constructor
    · intro hsome
      unfold entryStep
      rw [hsp]
      simp only [List.headD_cons, List.length_cons, List.length_nil, es]
      rw [hm]
      simp only [hb, hsome, Bool.true_and]
      simp
    · intro hnone
      unfold entryStep
      rw [hsp]
      simp only [List.headD_cons, List.length_cons, List.length_nil, es]
      rw [hm]
      simp only [hb, hnone, Bool.true_and, Bool.and_false, if_neg]
      simp [List.getD, ev]

/-- Witness for `c10_imageOverride`: override `"alt"` redirects
`"song#live"` to the `"alt"` variant when present, leaves `"live"` in
place when absent, and on a plain `"song"` reference replaces the
implicit `"default"` variant when present. -/
theorem c10_imageOverride_witness :
    ("alt" ≠ "" ∧
      splitHash ("song#live").data = ["song".data, "live".data] ∧
      lookupA [("song", [("alt", "a.png"), ("live", "l.png")])] "song" =
        some [("alt", "a.png"), ("live", "l.png")] ∧
      (lookupA [("alt", "a.png"), ("live", "l.png")] "alt").isSome = true ∧
      entryStep LW "Gig" [("song", [("alt", "a.png"), ("live", "l.png")])] "alt" env9
          "song#live" st9 =
        songEntryCore LW "Gig" env9 [("alt", "a.png"), ("live", "l.png")] "song#live"
          "song" "alt" st9) ∧
    ((lookupA [("live", "l.png")] "alt").isSome = false ∧
      lookupA [("song", [("live", "l.png")])] "song" = some [("live", "l.png")] ∧
      entryStep LW "Gig" [("song", [("live", "l.png")])] "alt" env9 "song#live" st9 =
        songEntryCore LW "Gig" env9 [("live", "l.png")] "song#live" "song" "live" st9) ∧
    (splitHash ("song").data = ["song".data] ∧
      lookupA [("song", [("alt", "a.png"), ("default", "d.png")])] "song" =
        some [("alt", "a.png"), ("default", "d.png")] ∧
      (lookupA [("alt", "a.png"), ("default", "d.png")] "alt").isSome = true ∧
      entryStep LW "Gig" [("song", [("alt", "a.png"), ("default", "d.png")])] "alt" env9
          "song" st9 =
        songEntryCore LW "Gig" env9 [("alt", "a.png"), ("default", "d.png")] "song"
          "song" "alt" st9) ∧
    ((lookupA [("default", "d.png")] "alt").isSome = false ∧
      lookupA [("song", [("default", "d.png")])] "song" = some [("default", "d.png")] ∧
      entryStep LW "Gig" [("song", [("default", "d.png")])] "alt" env9 "song" st9 =
        songEntryCore LW "Gig" env9 [("default", "d.png")] "song" "song" "default" st9) := by
  refine ⟨⟨by decide, rfl, rfl, rfl, ?_⟩, ⟨rfl, rfl, ?_⟩, ⟨rfl, rfl, rfl, ?_⟩,
    ⟨rfl, rfl, ?_⟩⟩
  · exact (c10_imageOverride LW "Gig" [("song", [("alt", "a.png"), ("live", "l.png")])]
      "alt" env9 "song#live" "song" "live" [("alt", "a.png"), ("live", "l.png")] st9
      (by decide) (Or.inr rfl) rfl).1 rfl
  · exact (c10_imageOverride LW "Gig" [("song", [("live", "l.png")])]
      "alt" env9 "song#live" "song" "live" [("live", "l.png")] st9
      (by decide) (Or.inr rfl) rfl).2 rfl
  · exact (c10_imageOverride LW "Gig" [("song", [("alt", "a.png"), ("default", "d.png")])]
      "alt" env9 "song" "song" "default" [("alt", "a.png"), ("default", "d.png")] st9
      (by decide) (Or.inl ⟨rfl, rfl⟩) rfl).1 rfl
  · exact (c10_imageOverride LW "Gig" [("song", [("default", "d.png")])]
      "alt" env9 "song" "song" "default" [("default", "d.png")] st9
      (by decide) (Or.inl ⟨rfl, rfl⟩) rfl).2 rfl

end GigSheets
